import Mathlib

/-!
Verification of the top-movers identification and index-impact scoring engine
of the market-movers repository, against its natural-language specification.

The embedding models the Python sources shallowly:
* floats are embedded as rationals (`ℚ`); Python's builtin `round(x, 2)`
  (round-half-to-even on the exact value) is embedded as `round2`;
* the SQLAlchemy session is embedded as explicit record lists threaded
  through the functions, with commit/rollback modelled by returning either
  the updated state or the last committed state;
* code that raises is embedded with `Except`/`Option` results.

Primary source: `app/services/market_data_service.py` (the implementation used
by the scheduler, the API layer, the report generator and the test suite) and
`app/services/news_service.py`.
-/

namespace MarketMovers

/-! ## Rounding

Python's `round(x, 2)` rounds to 2 decimal places with ties going to the even
digit (banker's rounding).  `roundHalfEven` is that rule on an exact rational.
-/

/-- Round a rational to the nearest integer, ties to the even integer. -/
def roundHalfEven (x : ℚ) : ℤ :=
  if x - ⌊x⌋ < 1/2 then ⌊x⌋
  else if 1/2 < x - ⌊x⌋ then ⌊x⌋ + 1
  else if ⌊x⌋ % 2 = 0 then ⌊x⌋ else ⌊x⌋ + 1

/-- Python `round(x, 2)`: round to two decimal places, ties to even. -/
def round2 (x : ℚ) : ℚ := (roundHalfEven (x * 100) : ℚ) / 100

theorem roundHalfEven_abs_le (x : ℚ) : |x - roundHalfEven x| ≤ 1/2 := by
  unfold roundHalfEven
  have hf : (⌊x⌋ : ℚ) ≤ x := Int.floor_le x
  have hf1 : x < (⌊x⌋ : ℚ) + 1 := Int.lt_floor_add_one x
  split_ifs with h1 h2 h3
  · rw [abs_of_nonneg (by linarith)]
    linarith
  · push_cast
    rw [abs_of_nonpos (by linarith)]
    linarith
  · rw [abs_of_nonneg (by linarith)]
    linarith
  · push_cast
    rw [abs_of_nonpos (by linarith)]
    linarith

theorem roundHalfEven_tie_even (x : ℚ) (h : |x - roundHalfEven x| = 1/2) :
    roundHalfEven x % 2 = 0 := by
  unfold roundHalfEven at *
  have hf : (⌊x⌋ : ℚ) ≤ x := Int.floor_le x
  have hf1 : x < (⌊x⌋ : ℚ) + 1 := Int.lt_floor_add_one x
  split_ifs at * with h1 h2 h3
  · rw [abs_of_nonneg (by linarith)] at h
    linarith
  · push_cast at h
    rw [abs_of_nonpos (by linarith)] at h
    exfalso; linarith
  · exact h3
  · omega

/-! ## Index Impact Calculator

`MarketDataService.calculate_index_impact` (market_data_service.py lines
256-261, identically index_service.py lines 134-138): pure arithmetic, no
validation or rejection of any input.
-/

/-- Embedding of `MarketDataService.calculate_index_impact`. -/
def calculate_index_impact (percent_change weight index_level : ℚ) : ℚ :=
  round2 ((weight * percent_change) / 100 * index_level / 100)

/-- C1: for every percent_change `p`, weight `w`, index level `L`,
`calculate_index_impact p w L` is `((w * p) / 100 * L) / 100` rounded to two
decimal places with round-half-to-even (the result is `n / 100` for an
integer `n` within `1/200` of the exact value, and an exact tie lands on an
even `n`); moreover `impact 1.5 6 5000 = 4.5` and `impact 0 w L = 0`.
Totality (no validation, no rejection of any numeric input) is inherent: the
function is a total function of its three rational arguments. -/
theorem calculate_index_impact_correct :
    (∀ p w L : ℚ, ∃ n : ℤ,
        calculate_index_impact p w L = (n : ℚ) / 100 ∧
        |(w * p) / 100 * L / 100 - (n : ℚ) / 100| ≤ 1 / 200 ∧
        (|(w * p) / 100 * L / 100 - (n : ℚ) / 100| = 1 / 200 → n % 2 = 0)) ∧
    calculate_index_impact (3/2) 6 5000 = 9/2 ∧
    (∀ w L : ℚ, calculate_index_impact 0 w L = 0) := by
  refine ⟨?_, by norm_num [calculate_index_impact, round2, roundHalfEven], ?_⟩
  · intro p w L
    refine ⟨roundHalfEven ((w * p) / 100 * L / 100 * 100), rfl, ?_, ?_⟩
    · have h := roundHalfEven_abs_le ((w * p) / 100 * L / 100 * 100)
      set v : ℚ := (w * p) / 100 * L / 100 with hv
      set n : ℤ := roundHalfEven (v * 100) with hn
      have heq : v - (n : ℚ) / 100 = (v * 100 - n) / 100 := by ring
      rw [heq, abs_div, abs_of_pos (by norm_num : (0:ℚ) < 100),
        div_le_iff₀ (by norm_num : (0:ℚ) < 100)]
      calc |v * 100 - (n : ℚ)| ≤ 1/2 := h
        _ = 1 / 200 * 100 := by norm_num
    · intro htie
      apply roundHalfEven_tie_even ((w * p) / 100 * L / 100 * 100)
      set v : ℚ := (w * p) / 100 * L / 100 with hv
      set n : ℤ := roundHalfEven (v * 100) with hn
      have heq : v - (n : ℚ) / 100 = (v * 100 - n) / 100 := by ring
      rw [heq, abs_div, abs_of_pos (by norm_num : (0:ℚ) < 100)] at htie
      have h2 : |v * 100 - (n : ℚ)| = 1 / 2 := by
        field_simp at htie
        linarith
      exact h2
  · intro w L
    show round2 ((w * 0) / 100 * L / 100) = 0
    have h : (w * 0) / 100 * L / 100 = 0 := by ring
    rw [h]
    norm_num [round2, roundHalfEven]

/-- Witness for C1 at a concrete tie: `(1 * 1) / 100 * 50 / 100 = 1/200`
rounds to `0` (even), and the zero case at `w = 3`, `L = 7`. -/
theorem calculate_index_impact_correct_witness :
    (∃ n : ℤ,
        calculate_index_impact 1 1 50 = (n : ℚ) / 100 ∧
        |(1 : ℚ) * 1 / 100 * 50 / 100 - (n : ℚ) / 100| ≤ 1 / 200 ∧
        (|(1 : ℚ) * 1 / 100 * 50 / 100 - (n : ℚ) / 100| = 1 / 200 → n % 2 = 0)) ∧
    calculate_index_impact 0 3 7 = 0 :=
  ⟨calculate_index_impact_correct.1 1 1 50,
   calculate_index_impact_correct.2.2 3 7⟩

/-! ## Data model

Embeddings of the ORM rows from `app/db/models.py` that the ranking engine
touches.  Trading dates are embedded as `Nat`, floats as `ℚ`.  Nullable
columns are `Option`s.
-/

/-- Row of `index_constituents`. -/
structure IndexConstituent where
  id : Nat
  symbol : String
  companyName : String
  weight : ℚ
  isActive : Bool
deriving DecidableEq

/-- Row of `daily_prices` (the fields ranking reads). -/
structure DailyPrice where
  symbol : String
  date : Nat
  currentPrice : ℚ
  percentChange : Option ℚ
deriving DecidableEq

/-- Row of `index_summaries` (the field ranking reads). -/
structure IndexSummary where
  date : Nat
  currentPrice : ℚ
deriving DecidableEq

/-- Row of `market_movers`, including the six headline columns written later
by the sentiment alignment pass. -/
structure MarketMover where
  date : Nat
  constituentId : Nat
  symbol : String
  companyName : String
  percentChange : ℚ
  indexPointsContribution : ℚ
  closePrice : ℚ
  rank : ℤ
  moverType : String
  positiveHeadline : Option String
  positiveHeadlineScore : Option ℚ
  positiveHeadlineUrl : Option String
  negativeHeadline : Option String
  negativeHeadlineScore : Option ℚ
  negativeHeadlineUrl : Option String
deriving DecidableEq

/-- The candidate dict built inside `identify_top_movers`. -/
structure Mover where
  symbol : String
  companyName : String
  percentChange : ℚ
  closePrice : ℚ
  indexPointsContribution : ℚ
  constituentId : Nat
deriving DecidableEq

/-- The database state visible to `MarketDataService`. -/
structure MarketDB where
  constituents : List IndexConstituent
  prices : List DailyPrice
  summaries : List IndexSummary
  movers : List MarketMover
deriving DecidableEq

/-- Item of the constituent list loaded from S3
(`load_top_constituents_s3`); the embedding takes a successfully loaded list
as a parameter. -/
structure ConstituentItem where
  company : String
  symbol : String
  weight : ℚ
deriving DecidableEq

/-! ## Constituent registry update

`MarketDataService.upsert_all_constituents` and
`MarketDataService.update_sp500_constituents`
(market_data_service.py lines 107-171).

The batch statement of `upsert_all_constituents` is built from the generic
`sqlalchemy.insert` (module import, line 5), whose `Insert` construct has no
`on_conflict_do_update` method; the call at line 156 therefore raises
`AttributeError` for every non-empty item list, outside the inner
`try/except` and before anything is executed.  Only the empty-list early
return (line 137) completes.
-/

/-- `upsert_all_constituents`: early no-op for an empty list; for a
non-empty list, statement construction raises (`Except.error`) before the
database is touched, so the table is never changed. -/
def upsert_all_constituents (cs : List IndexConstituent)
    (items : List ConstituentItem) : Except Unit (List IndexConstituent) :=
  if items.isEmpty then .ok cs
  else .error ()

/-- `update_sp500_constituents`: upsert the fresh list, then deactivate
every constituent whose symbol is not in the fresh list, and commit.  When
the upsert raises, the method rolls back and re-raises: the `Except.error`
carries the unchanged, rolled-back state.  (The success path is reachable
only with an empty fetched list, where the `notin_` filter matches every
row and deactivates it.) -/
def update_sp500_constituents (s3Items : List ConstituentItem)
    (db : MarketDB) : Except MarketDB MarketDB :=
  match upsert_all_constituents db.constituents s3Items with
  | .error _ => .error db
  | .ok cs1 =>
    let symbols := s3Items.map (·.symbol)
    .ok { db with
          constituents := cs1.map (fun c =>
            if c.symbol ∈ symbols then c
            else { c with isActive := false }) }

/-! ## Queries -/

/-- Query `IndexSummary` by date (`filter_by(date=...).one_or_none()`). -/
def findSummary (d : Nat) : List IndexSummary → Option IndexSummary
  | [] => none
  | s :: rest => if s.date = d then some s else findSummary d rest

/-- `MarketDataService.get_index_level`: the summary's current price, if a
summary row exists for the date. -/
def get_index_level (db : MarketDB) (d : Nat) : Option ℚ :=
  (findSummary d db.summaries).map (·.currentPrice)

/-- Query `DailyPrice` by symbol and date (the `prices` dict lookup; the
`(symbol, date)` unique constraint makes the first match the only match). -/
def findPrice (sym : String) (d : Nat) : List DailyPrice → Option DailyPrice
  | [] => none
  | p :: rest =>
      if p.symbol = sym ∧ p.date = d then some p else findPrice sym d rest

/-- Active constituents (`filter_by(is_active=True).all()`). -/
def activeConstituents (db : MarketDB) : List IndexConstituent :=
  db.constituents.filter (·.isActive)

/-! ## Mover ranking

`MarketDataService.identify_top_movers` (market_data_service.py lines
319-412), decomposed into the candidate build, the stable sort by absolute
index impact, the truncated sign partition, and the persistence step.
-/

/-- Candidate build: for each active constituent with a price observation for
the date whose percent change is non-null, the mover dict. -/
def buildMovers (L : ℚ) (d : Nat) (prices : List DailyPrice) :
    List IndexConstituent → List Mover
  | [] => []
  | c :: cs =>
    match findPrice c.symbol d prices with
    | none => buildMovers L d prices cs
    | some p =>
      match p.percentChange with
      | none => buildMovers L d prices cs
      | some pct =>
        { symbol := c.symbol, companyName := c.companyName,
          percentChange := pct, closePrice := p.currentPrice,
          indexPointsContribution := calculate_index_impact pct c.weight L,
          constituentId := c.id } :: buildMovers L d prices cs

/-- Insertion step of a stable descending sort on `|index_points_contribution|`
(Python's stable `list.sort(key=..., reverse=True)`): an element moves ahead
only of strictly smaller keys, so equal keys keep their original order. -/
def insertByAbsImpact (m : Mover) : List Mover → List Mover
  | [] => [m]
  | x :: xs =>
    if |x.indexPointsContribution| ≤ |m.indexPointsContribution| then
      m :: x :: xs
    else x :: insertByAbsImpact m xs

/-- Stable sort of the candidate pool by absolute index impact, descending. -/
def sortByAbsImpact (l : List Mover) : List Mover :=
  l.foldr insertByAbsImpact []

/-- `if not constituents:`-branch of `identify_top_movers`: when no
constituent is active, the method itself calls `update_sp500_constituents`
and re-queries; the attempted refresh raises for every non-empty fetched
list. -/
def refreshIfEmpty (s3Items : List ConstituentItem) (db : MarketDB) :
    Except MarketDB MarketDB :=
  if (activeConstituents db).isEmpty then update_sp500_constituents s3Items db
  else .ok db

/-- The sorted pre-truncation candidate pool of `identify_top_movers`
(empty when the run aborts in the refresh branch before building it). -/
def candidatePool (s3Items : List ConstituentItem) (db : MarketDB) (d : Nat)
    (L : ℚ) : List Mover :=
  match refreshIfEmpty s3Items db with
  | .error _ => []
  | .ok db1 =>
    sortByAbsImpact (buildMovers L d db1.prices (activeConstituents db1))

/-- Persisted gainer rows: `enumerate(gainers, start=1)` with `rank=rank`. -/
def gainerRecordsFrom (d : Nat) (rank : ℤ) : List Mover → List MarketMover
  | [] => []
  | g :: gs =>
    { date := d, constituentId := g.constituentId, symbol := g.symbol,
      companyName := g.companyName, percentChange := g.percentChange,
      indexPointsContribution := g.indexPointsContribution,
      closePrice := g.closePrice, rank := rank, moverType := "gainer",
      positiveHeadline := none, positiveHeadlineScore := none,
      positiveHeadlineUrl := none, negativeHeadline := none,
      negativeHeadlineScore := none, negativeHeadlineUrl := none } ::
    gainerRecordsFrom d (rank + 1) gs

/-- Persisted loser rows: `enumerate(losers, start=1)` with `rank=-rank`. -/
def loserRecordsFrom (d : Nat) (rank : ℤ) : List Mover → List MarketMover
  | [] => []
  | l :: ls =>
    { date := d, constituentId := l.constituentId, symbol := l.symbol,
      companyName := l.companyName, percentChange := l.percentChange,
      indexPointsContribution := l.indexPointsContribution,
      closePrice := l.closePrice, rank := -rank, moverType := "loser",
      positiveHeadline := none, positiveHeadlineScore := none,
      positiveHeadlineUrl := none, negativeHeadline := none,
      negativeHeadlineScore := none, negativeHeadlineUrl := none } ::
    loserRecordsFrom d (rank + 1) ls

/-- Whether appending `news` to `existing` respects the `(symbol, date)`
unique constraint of `market_movers`; when it does not, the final
`db.commit()` raises and is rolled back. -/
def insertMoversOk (existing : List MarketMover) :
    List MarketMover → Bool
  | [] => true
  | n :: ns =>
    existing.all (fun r => !(decide (r.symbol = n.symbol) &&
      decide (r.date = n.date))) &&
    insertMoversOk (existing ++ [n]) ns

/-- Error raised inside the `try` block of `identify_top_movers`:
the missing index level (`ValueError`), the `AttributeError` escaping the
attempted registry refresh, or the duplicate-write constraint violation at
the final commit. -/
inductive MoverError where
  | missingIndexLevel
  | refreshFailed
  | duplicateMover
deriving DecidableEq

/-- Body of the `try` block of `identify_top_movers`.  An `Except.error`
carries the raised condition together with the database state that survives
the rollback. -/
def identifyTopMoversCore (s3Items : List ConstituentItem) (db : MarketDB)
    (d : Nat) :
    Except (MoverError × MarketDB) (List Mover × List Mover × MarketDB) :=
  match get_index_level db d with
  | none => .error (.missingIndexLevel, db)
  | some L =>
    match refreshIfEmpty s3Items db with
    | .error dbc => .error (.refreshFailed, dbc)
    | .ok db1 =>
      let pool := sortByAbsImpact
        (buildMovers L d db1.prices (activeConstituents db1))
      let gainers :=
        (pool.filter (fun m => decide (0 < m.percentChange))).take 5
      let losers :=
        (pool.filter (fun m => decide (m.percentChange < 0))).take 5
      let news := gainerRecordsFrom d 1 gainers ++ loserRecordsFrom d 1 losers
      if insertMoversOk db1.movers news then
        .ok (gainers, losers, { db1 with movers := db1.movers ++ news })
      else
        .error (.duplicateMover, db1)

/-- `MarketDataService.identify_top_movers`: the outermost `except` catches
every error, rolls back, and returns `([], [])`. -/
def identify_top_movers (s3Items : List ConstituentItem) (db : MarketDB)
    (d : Nat) : (List Mover × List Mover) × MarketDB :=
  match identifyTopMoversCore s3Items db d with
  | .ok (g, l, db') => ((g, l), db')
  | .error (_, dbc) => (([], []), dbc)

/-! ## Concrete scenario (spec §8): AAPL +2.0 w6.5, MSFT -1.5 w6.0,
TSLA +0.5 w4.0 at index level 5000 on date 0. -/

/-- Scenario database: three active constituents, their price observations
for date 0, and the index summary for date 0. -/
def dbScenario : MarketDB :=
  { constituents :=
      [⟨1, "AAPL", "Apple", 13/2, true⟩,
       ⟨2, "MSFT", "Microsoft", 6, true⟩,
       ⟨3, "TSLA", "Tesla", 4, true⟩],
    prices :=
      [⟨"AAPL", 0, 200, some 2⟩,
       ⟨"MSFT", 0, 300, some (-3/2)⟩,
       ⟨"TSLA", 0, 180, some (1/2)⟩],
    summaries := [⟨0, 5000⟩],
    movers := [] }

/-- Scenario candidate for AAPL: impact `6.50`. -/
def appleMover : Mover := ⟨"AAPL", "Apple", 2, 200, 13/2, 1⟩

/-- Scenario candidate for MSFT: impact `-4.50`. -/
def msftMover : Mover := ⟨"MSFT", "Microsoft", -3/2, 300, -9/2, 2⟩

/-- Scenario candidate for TSLA: impact `1.00`. -/
def tslaMover : Mover := ⟨"TSLA", "Tesla", 1/2, 180, 1, 3⟩

/-- C2: on the three-constituent scenario, `identify_top_movers` returns
gainers `[AAPL, TSLA]` and losers `[MSFT]`, in that order, with impacts
`6.50`, `1.00` and `-4.50`, and persists the three ranked mover rows
(AAPL rank 1, TSLA rank 2, MSFT rank -1). -/
theorem identify_top_movers_scenario :
    identify_top_movers [] dbScenario 0 =
      (([appleMover, tslaMover], [msftMover]),
       { dbScenario with movers :=
          [⟨0, 1, "AAPL", "Apple", 2, 13/2, 200, 1, "gainer",
            none, none, none, none, none, none⟩,
           ⟨0, 3, "TSLA", "Tesla", 1/2, 1, 180, 2, "gainer",
            none, none, none, none, none, none⟩,
           ⟨0, 2, "MSFT", "Microsoft", -3/2, -9/2, 300, -1, "loser",
            none, none, none, none, none, none⟩] }) := by
  have hA : calculate_index_impact 2 (13/2) 5000 = 13/2 := by
    norm_num [calculate_index_impact, round2, roundHalfEven]
  have hM : calculate_index_impact (-(3/2)) 6 5000 = -(9/2) := by
    norm_num [calculate_index_impact, round2, roundHalfEven]
  have hT : calculate_index_impact (1/2) 4 5000 = 1 := by
    norm_num [calculate_index_impact, round2, roundHalfEven]
  have s1 : ("AAPL" : String) ≠ "MSFT" := by decide
  have s2 : ("AAPL" : String) ≠ "TSLA" := by decide
  have s3 : ("MSFT" : String) ≠ "TSLA" := by decide
  have s4 : ("MSFT" : String) ≠ "AAPL" := by decide
  have s5 : ("TSLA" : String) ≠ "AAPL" := by decide
  have s6 : ("TSLA" : String) ≠ "MSFT" := by decide
  norm_num [identify_top_movers, identifyTopMoversCore, get_index_level,
    findSummary, refreshIfEmpty, activeConstituents, buildMovers, findPrice,
    sortByAbsImpact, insertByAbsImpact, insertMoversOk, gainerRecordsFrom,
    loserRecordsFrom, List.filter, dbScenario, appleMover, msftMover,
    tslaMover, hA, hM, hT, s1, s2, s3, s4, s5, s6, abs_of_nonneg,
    abs_of_nonpos]

/-! ## Sortedness of the candidate pool -/

/-- Descending order on absolute index impact. -/
def absGE (a b : Mover) : Prop :=
  |b.indexPointsContribution| ≤ |a.indexPointsContribution|

theorem mem_insertByAbsImpact {y m : Mover} :
    ∀ {l : List Mover}, y ∈ insertByAbsImpact m l ↔ y = m ∨ y ∈ l := by
  intro l
  induction l with
  | nil => simp [insertByAbsImpact]
  | cons x xs ih =>
    unfold insertByAbsImpact
    split
    · simp
    · simp only [List.mem_cons, ih]
      tauto

theorem pairwise_insertByAbsImpact {m : Mover} :
    ∀ {l : List Mover}, l.Pairwise absGE → (insertByAbsImpact m l).Pairwise absGE := by
  intro l
  induction l with
  | nil => intro _; simp [insertByAbsImpact, List.pairwise_singleton]
  | cons x xs ih =>
    intro h
    rcases List.pairwise_cons.mp h with ⟨hx, hxs⟩
    unfold insertByAbsImpact
    split
    · rename_i hle
      refine List.pairwise_cons.mpr ⟨?_, h⟩
      intro y hy
      rcases List.mem_cons.mp hy with rfl | hy
      · exact hle
      · exact le_trans (hx y hy) hle
    · rename_i hgt
      refine List.pairwise_cons.mpr ⟨?_, ih hxs⟩
      intro y hy
      rcases mem_insertByAbsImpact.mp hy with rfl | hy
      · exact le_of_lt (lt_of_not_le hgt)
      · exact hx y hy

theorem pairwise_sortByAbsImpact (l : List Mover) :
    (sortByAbsImpact l).Pairwise absGE := by
  induction l with
  | nil => simp [sortByAbsImpact]
  | cons x xs ih => exact pairwise_insertByAbsImpact ih

theorem pairwise_candidatePool (s3Items : List ConstituentItem)
    (db : MarketDB) (d : Nat) (L : ℚ) :
    (candidatePool s3Items db d L).Pairwise absGE := by
  unfold candidatePool
  cases refreshIfEmpty s3Items db with
  | error dbc => exact List.Pairwise.nil
  | ok db1 => exact pairwise_sortByAbsImpact _

/-! ## Rank assignment -/

theorem gainerRecordsFrom_rank (d : Nat) :
    ∀ (gs : List Mover) (r : ℤ) (i : Nat), i < gs.length →
      ((gainerRecordsFrom d r gs).get? i).map (·.rank) = some (r + i) := by
  intro gs
  induction gs with
  | nil => intro r i hi; simp at hi
  | cons g gs ih =>
    intro r i hi
    cases i with
    | zero => simp [gainerRecordsFrom]
    | succ i =>
      have := ih (r + 1) i (Nat.lt_of_succ_lt_succ hi)
      simp only [gainerRecordsFrom, List.get?_cons_succ, this]
      congr 1
      push_cast
      ring

theorem loserRecordsFrom_rank (d : Nat) :
    ∀ (ls : List Mover) (r : ℤ) (i : Nat), i < ls.length →
      ((loserRecordsFrom d r ls).get? i).map (·.rank) = some (-(r + i)) := by
  intro ls
  induction ls with
  | nil => intro r i hi; simp at hi
  | cons l ls ih =>
    intro r i hi
    cases i with
    | zero => simp [loserRecordsFrom]
    | succ i =>
      have := ih (r + 1) i (Nat.lt_of_succ_lt_succ hi)
      simp only [loserRecordsFrom, List.get?_cons_succ, this]
      congr 1
      push_cast
      ring

/-! ## Shape of a successful `identify_top_movers` run -/

/-- A refresh raise rolls everything back: the carried state is the entry
state. -/
theorem update_sp500_error (s3Items : List ConstituentItem)
    (db dbc : MarketDB)
    (h : update_sp500_constituents s3Items db = .error dbc) : dbc = db := by
  unfold update_sp500_constituents upsert_all_constituents at h
  split at h <;> simp_all

/-- A successful registry update (or skip) touches only the constituent
table. -/
theorem update_sp500_ok_movers (s3Items : List ConstituentItem)
    (db db1 : MarketDB)
    (h : update_sp500_constituents s3Items db = .ok db1) :
    db1.movers = db.movers := by
  unfold update_sp500_constituents upsert_all_constituents at h
  split at h
  · simp at h
  · simp only [Except.ok.injEq] at h
    rw [← h]

theorem refreshIfEmpty_error (s3Items : List ConstituentItem)
    (db dbc : MarketDB)
    (h : refreshIfEmpty s3Items db = .error dbc) : dbc = db := by
  unfold refreshIfEmpty at h
  split at h
  · exact update_sp500_error s3Items db dbc h
  · simp at h

theorem refreshIfEmpty_ok_movers (s3Items : List ConstituentItem)
    (db db1 : MarketDB)
    (h : refreshIfEmpty s3Items db = .ok db1) : db1.movers = db.movers := by
  unfold refreshIfEmpty at h
  split at h
  · exact update_sp500_ok_movers s3Items db db1 h
  · simp only [Except.ok.injEq] at h
    rw [← h]

/-- Anatomy of an `Except.ok` result of the `try` block: the refresh branch
passed, the returned lists are the truncated sign partitions of the sorted
candidate pool, and the committed state appends exactly the ranked gainer
and loser rows. -/
theorem identifyTopMoversCore_ok_shape (s3Items : List ConstituentItem)
    (db : MarketDB) (d : Nat) (g l : List Mover) (db' : MarketDB)
    (h : identifyTopMoversCore s3Items db d = .ok (g, l, db')) :
    ∃ L db1, get_index_level db d = some L ∧
      refreshIfEmpty s3Items db = .ok db1 ∧
      g = ((candidatePool s3Items db d L).filter
            (fun m => decide (0 < m.percentChange))).take 5 ∧
      l = ((candidatePool s3Items db d L).filter
            (fun m => decide (m.percentChange < 0))).take 5 ∧
      db' = { db1 with
              movers := db1.movers ++
                (gainerRecordsFrom d 1 g ++ loserRecordsFrom d 1 l) } := by
  unfold identifyTopMoversCore at h
  cases hL : get_index_level db d with
  | none => rw [hL] at h; exact absurd h (by simp)
  | some L =>
    rw [hL] at h
    dsimp only at h
    cases hre : refreshIfEmpty s3Items db with
    | error dbc => rw [hre] at h; exact absurd h (by simp)
    | ok db1 =>
      rw [hre] at h
      dsimp only at h
      have hpool : candidatePool s3Items db d L = sortByAbsImpact
          (buildMovers L d db1.prices (activeConstituents db1)) := by
        unfold candidatePool
        rw [hre]
      refine ⟨L, db1, rfl, rfl, ?_⟩
      rw [hpool]
      split at h
      · simp only [Except.ok.injEq, Prod.mk.injEq] at h
        obtain ⟨h1, h2, h3⟩ := h
        subst h1; subst h2; subst h3
        exact ⟨rfl, rfl, rfl⟩
      · exact absurd h (by simp)

/-- C5: the combined pre-truncation candidate pool is ordered by absolute
index-point impact descending (consecutive entries satisfy
`|impact[i]| >= |impact[i+1]|`), and a successful run persists exactly the
gainer rows with ranks `1..N` in sorted order followed by the loser rows
with ranks `-1..-N`, where the rank `-1` loser has the largest magnitude
among losers. -/
theorem movers_sorted_and_ranked :
    (∀ (s3Items : List ConstituentItem) (db : MarketDB) (d : Nat) (L : ℚ),
      List.Chain' absGE (candidatePool s3Items db d L)) ∧
    (∀ s3Items db d g l db',
      identifyTopMoversCore s3Items db d = .ok (g, l, db') →
      db'.movers = db.movers ++
        (gainerRecordsFrom d 1 g ++ loserRecordsFrom d 1 l) ∧
      (∀ i : Nat, i < g.length →
        ((gainerRecordsFrom d 1 g).get? i).map (·.rank) = some ((i : ℤ) + 1)) ∧
      (∀ i : Nat, i < l.length →
        ((loserRecordsFrom d 1 l).get? i).map (·.rank) = some (-((i : ℤ) + 1))) ∧
      (∀ m ∈ l, ∀ hd ∈ l.head?,
        |m.indexPointsContribution| ≤ |hd.indexPointsContribution|)) := by
  constructor
  · intro s3Items db d L
    exact (pairwise_candidatePool s3Items db d L).chain'
  · intro s3Items db d g l db' h
    obtain ⟨L, db1, -, hre, hg, hl, hdb⟩ :=
      identifyTopMoversCore_ok_shape _ _ _ _ _ _ h
    have hmv : db'.movers = db.movers ++
        (gainerRecordsFrom d 1 g ++ loserRecordsFrom d 1 l) := by
      rw [hdb]
      dsimp only
      rw [refreshIfEmpty_ok_movers s3Items db db1 hre]
    refine ⟨hmv, ?_, ?_, ?_⟩
    · intro i hi
      simpa [add_comm] using gainerRecordsFrom_rank d g 1 i hi
    · intro i hi
      simpa [add_comm] using loserRecordsFrom_rank d l 1 i hi
    · have hp : l.Pairwise absGE := by
        rw [hl]
        exact ((pairwise_candidatePool s3Items db d L).filter _).sublist
          (List.take_sublist _ _)
      intro m hm hd hhd
      cases l with
      | nil => simp at hhd
      | cons a t =>
        simp only [List.head?_cons, Option.mem_def, Option.some.injEq] at hhd
        subst hhd
        rcases List.mem_cons.mp hm with rfl | hm
        · exact le_refl _
        · exact (List.pairwise_cons.mp hp).1 m hm

/-! ## Error and degenerate states -/

/-- A state with a constituent and a price but no index summary for date 0:
ranking raises `ValueError("Index level not available ...")`. -/
def dbNoLevel : MarketDB :=
  { constituents := [⟨1, "AAPL", "Apple", 13/2, true⟩],
    prices := [⟨"AAPL", 0, 200, some 2⟩],
    summaries := [],
    movers := [] }

/-- A state with an index summary and an active constituent but no price
observation: ranking succeeds and genuinely finds no movers. -/
def dbEmptyOk : MarketDB :=
  { constituents := [⟨1, "AAPL", "Apple", 13/2, true⟩],
    prices := [],
    summaries := [⟨0, 5000⟩],
    movers := [] }

/-- A state with an index summary but an empty constituent registry. -/
def dbNoConstituents : MarketDB :=
  { constituents := [],
    prices := [],
    summaries := [⟨0, 5000⟩],
    movers := [] }

/-- A one-item S3 constituent list. -/
def s3Apple : List ConstituentItem := [⟨"Apple", "AAPL", 13/2⟩]

/-! ## C3: missing index level -/

/-- C3 (amended): with no index level stored for the date, the `try` body of
`identify_top_movers` raises the missing-index-level condition without
retrying, but the method's outer `except` catches it, rolls back, and
returns `([], [])` — a value not distinguishable from an empty success. -/
theorem identify_top_movers_missing_level (s3Items : List ConstituentItem)
    (db : MarketDB) (d : Nat) (h : get_index_level db d = none) :
    identifyTopMoversCore s3Items db d = .error (.missingIndexLevel, db) ∧
    identify_top_movers s3Items db d = (([], []), db) := by
  have hc : identifyTopMoversCore s3Items db d =
      .error (.missingIndexLevel, db) := by
    unfold identifyTopMoversCore
    rw [h]
  exact ⟨hc, by simp [identify_top_movers, hc]⟩

/-- Witness for C3 at `dbNoLevel`, date 0. -/
theorem identify_top_movers_missing_level_witness :
    identifyTopMoversCore [] dbNoLevel 0 =
      .error (.missingIndexLevel, dbNoLevel) ∧
    identify_top_movers [] dbNoLevel 0 = (([], []), dbNoLevel) :=
  identify_top_movers_missing_level [] dbNoLevel 0 rfl

/-- C3 counterexample: the error return `([], [])` for a date with no index
level equals the successful return for a date with no movers — the caller
cannot distinguish them, contradicting "returns an error value
distinguishable from a successful empty result". -/
theorem identify_top_movers_error_indistinguishable :
    identifyTopMoversCore [] dbNoLevel 0 =
      .error (.missingIndexLevel, dbNoLevel) ∧
    identifyTopMoversCore [] dbEmptyOk 0 = .ok ([], [], dbEmptyOk) ∧
    (identify_top_movers [] dbNoLevel 0).1 =
      (identify_top_movers [] dbEmptyOk 0).1 :=
  ⟨rfl, rfl, rfl⟩

/-! ## C4: an empty registry triggers an internal refresh attempt that
cannot repopulate the registry -/

/-- C4 (amended): when the set of active constituents is empty (and an
index level exists for the date), `identify_top_movers` does not report a
"no active constituents" condition upward.  It attempts to refresh the
registry itself by calling `update_sp500_constituents`, but for every
non-empty fetched list the batch upsert raises `AttributeError`
(market_data_service.py builds the statement from the generic
`sqlalchemy.insert`, which has no `on_conflict_do_update`), the refresh
rolls back and re-raises, and the method's outer `except` swallows the
error: the caller receives `([], [])` with the registry unchanged — not
distinguishable from an empty success. -/
theorem identify_top_movers_refresh_amended (s3Items : List ConstituentItem)
    (db : MarketDB) (d : Nat) (L : ℚ)
    (hL : get_index_level db d = some L)
    (h2 : activeConstituents db = [])
    (h3 : s3Items ≠ []) :
    identifyTopMoversCore s3Items db d = .error (.refreshFailed, db) ∧
    identify_top_movers s3Items db d = (([], []), db) := by
  have hup : update_sp500_constituents s3Items db = .error db := by
    unfold update_sp500_constituents upsert_all_constituents
    rw [if_neg (fun hemp => h3 (List.isEmpty_iff.mp hemp))]
  have hre : refreshIfEmpty s3Items db = .error db := by
    unfold refreshIfEmpty
    rw [if_pos (by rw [h2]; rfl)]
    exact hup
  have hc : identifyTopMoversCore s3Items db d =
      .error (.refreshFailed, db) := by
    unfold identifyTopMoversCore
    rw [hL]
    dsimp only
    rw [hre]
  exact ⟨hc, by simp [identify_top_movers, hc]⟩

/-- Witness for C4's amended theorem: the empty registry with a one-item
fetched list. -/
theorem identify_top_movers_refresh_amended_witness :
    identifyTopMoversCore s3Apple dbNoConstituents 0 =
      .error (.refreshFailed, dbNoConstituents) ∧
    identify_top_movers s3Apple dbNoConstituents 0 =
      (([], []), dbNoConstituents) :=
  identify_top_movers_refresh_amended s3Apple dbNoConstituents 0 5000 rfl rfl
    (by simp [s3Apple])

/-- C4 counterexample: on a state with an empty registry, no "no active
constituents" condition reaches the caller.  The run attempts the internal
refresh, the refresh raises before touching the table, the outer `except`
swallows the error, and the caller receives `([], [])` with the registry
left unchanged — the same value a successful day with no movers returns. -/
theorem identify_top_movers_no_report :
    identifyTopMoversCore s3Apple dbNoConstituents 0 =
      .error (.refreshFailed, dbNoConstituents) ∧
    identify_top_movers s3Apple dbNoConstituents 0 =
      (([], []), dbNoConstituents) ∧
    (identify_top_movers s3Apple dbNoConstituents 0).1 =
      (identify_top_movers [] dbEmptyOk 0).1 :=
  ⟨rfl, rfl, rfl⟩

/-! ## C6: sign partition and truncation -/

/-- C6: every returned gainer has positive percent change, every returned
loser negative, a zero-percent-change candidate lands in neither list, and
each list has at most 5 entries — for every input state (error returns are
the empty pair and satisfy all bounds trivially). -/
theorem gainers_losers_partition (s3Items : List ConstituentItem)
    (db : MarketDB) (d : Nat) :
    ((identify_top_movers s3Items db d).1.1.all
      (fun m => decide (0 < m.percentChange))) = true ∧
    ((identify_top_movers s3Items db d).1.2.all
      (fun m => decide (m.percentChange < 0))) = true ∧
    (∀ m : Mover, m.percentChange = 0 →
      m ∉ (identify_top_movers s3Items db d).1.1 ∧
      m ∉ (identify_top_movers s3Items db d).1.2) ∧
    (identify_top_movers s3Items db d).1.1.length ≤ 5 ∧
    (identify_top_movers s3Items db d).1.2.length ≤ 5 := by
  cases hc : identifyTopMoversCore s3Items db d with
  | error p =>
    obtain ⟨e, dbc⟩ := p
    simp [identify_top_movers, hc]
  | ok t =>
    obtain ⟨g, l, db'⟩ := t
    obtain ⟨L, db1, -, -, hg, hl, -⟩ :=
      identifyTopMoversCore_ok_shape _ _ _ _ _ _ hc
    have hres : identify_top_movers s3Items db d = ((g, l), db') := by
      simp [identify_top_movers, hc]
    rw [hres]
    subst hg
    subst hl
    refine ⟨?_, ?_, ?_, ?_, ?_⟩
    · rw [List.all_eq_true]
      intro m hm
      exact (List.mem_filter.mp (List.mem_of_mem_take hm)).2
    · rw [List.all_eq_true]
      intro m hm
      exact (List.mem_filter.mp (List.mem_of_mem_take hm)).2
    · intro m hm0
      constructor <;> intro hmem
      · have hd := (List.mem_filter.mp (List.mem_of_mem_take hmem)).2
        exact absurd (hm0 ▸ of_decide_eq_true hd) (lt_irrefl 0)
      · have hd := (List.mem_filter.mp (List.mem_of_mem_take hmem)).2
        exact absurd (hm0 ▸ of_decide_eq_true hd) (lt_irrefl 0)
    · exact List.length_take_le _ _
    · exact List.length_take_le _ _

/-- Witness for C6: a zero-percent-change mover is in neither returned list
on the concrete no-mover state. -/
theorem gainers_losers_partition_witness :
    (⟨"ZERO", "Zero", 0, 0, 0, 9⟩ : Mover) ∉
      (identify_top_movers [] dbEmptyOk 0).1.1 ∧
    (⟨"ZERO", "Zero", 0, 0, 0, 9⟩ : Mover) ∉
      (identify_top_movers [] dbEmptyOk 0).1.2 :=
  (gainers_losers_partition [] dbEmptyOk 0).2.2.1 ⟨"ZERO", "Zero", 0, 0, 0, 9⟩
    rfl

/-- Witness for C5's ranked-persistence part at the concrete no-mover
state (the hypothesis `identifyTopMoversCore ... = .ok ...` is discharged
by evaluation). -/
theorem movers_sorted_and_ranked_witness :
    dbEmptyOk.movers = dbEmptyOk.movers ++
      (gainerRecordsFrom 0 1 [] ++ loserRecordsFrom 0 1 []) ∧
    (∀ i : Nat, i < ([] : List Mover).length →
      ((gainerRecordsFrom 0 1 []).get? i).map (·.rank) = some ((i : ℤ) + 1)) ∧
    (∀ i : Nat, i < ([] : List Mover).length →
      ((loserRecordsFrom 0 1 []).get? i).map (·.rank) =
        some (-((i : ℤ) + 1))) ∧
    (∀ m ∈ ([] : List Mover), ∀ hd ∈ ([] : List Mover).head?,
      |m.indexPointsContribution| ≤ |hd.indexPointsContribution|) :=
  movers_sorted_and_ranked.2 [] dbEmptyOk 0 [] [] dbEmptyOk rfl

/-! ## C10: total over error cases -/

/-- C10: whenever the `try` body of `identify_top_movers` raises (missing
index level, or the duplicate-write constraint violation at commit), the
method catches the error, rolls back (the returned state carries no new
mover rows), and returns `([], [])` — and a genuinely empty successful day
returns the same value, so the caller cannot tell them apart. -/
theorem identify_top_movers_total_on_errors :
    (∀ (s3Items : List ConstituentItem) (db : MarketDB) (d : Nat)
        (e : MoverError) (dbc : MarketDB),
      identifyTopMoversCore s3Items db d = .error (e, dbc) →
      identify_top_movers s3Items db d = (([], []), dbc) ∧
      dbc.movers = db.movers) ∧
    (identify_top_movers [] dbNoLevel 0).1 =
      (identify_top_movers [] dbEmptyOk 0).1 := by
  constructor
  · intro s3Items db d e dbc h
    refine ⟨by simp [identify_top_movers, h], ?_⟩
    unfold identifyTopMoversCore at h
    cases hL : get_index_level db d with
    | none =>
      rw [hL] at h
      simp only [Except.error.injEq, Prod.mk.injEq] at h
      rw [← h.2]
    | some L =>
      rw [hL] at h
      dsimp only at h
      cases hre : refreshIfEmpty s3Items db with
      | error dbc' =>
        rw [hre] at h
        simp only [Except.error.injEq, Prod.mk.injEq] at h
        rw [← h.2, refreshIfEmpty_error s3Items db dbc' hre]
      | ok db1 =>
        rw [hre] at h
        dsimp only at h
        split at h
        · exact absurd h (by simp)
        · simp only [Except.error.injEq, Prod.mk.injEq] at h
          rw [← h.2]
          exact refreshIfEmpty_ok_movers s3Items db db1 hre
  · rfl

/-- Witness for C10 at the missing-index-level state. -/
theorem identify_top_movers_total_on_errors_witness :
    identify_top_movers [] dbNoLevel 0 = (([], []), dbNoLevel) ∧
    dbNoLevel.movers = dbNoLevel.movers :=
  identify_top_movers_total_on_errors.1 [] dbNoLevel 0 .missingIndexLevel
    dbNoLevel rfl

/-! ## Sentiment alignment (`NewsService.analyze_sentiment_for_date`,
news_service.py lines 65-125)

The classifier is a parameter `classify : String → Option (String × ℚ)`
returning the label and confidence; `none` models the pipeline raising.
The truncation to the model's input limit happens inside the classifier.
-/

/-- Row of `news_articles` (the fields the alignment pass touches). -/
structure NewsArticle where
  symbol : String
  date : Nat
  headline : String
  summary : String
  url : String
  sentimentLabel : Option String
  sentimentScore : Option ℚ
  isTopHeadline : Bool
deriving DecidableEq

/-- The database state visible to `NewsService`. -/
structure NewsDB where
  articles : List NewsArticle
  movers : List MarketMover
deriving DecidableEq

/-- Text handed to the classifier: `f"{headline}. {summary}"`. -/
def classifyText (a : NewsArticle) : String :=
  a.headline ++ ". " ++ a.summary

/-- First loop of `analyze_sentiment_for_date`: classify, in list order,
every article of the date whose `sentiment_score` is null, storing the
lowercased label and the score.  A classifier failure raises: the
`Except.error` carries the number of classifier invocations made (the
failing one included).  On success the pair carries the updated articles and
the invocation count. -/
def scoreArticles (classify : String → Option (String × ℚ)) (d : Nat) :
    List NewsArticle → Except Nat (List NewsArticle × Nat)
  | [] => .ok ([], 0)
  | a :: rest =>
    if a.date = d ∧ a.sentimentScore = none then
      match classify (classifyText a) with
      | none => .error 1
      | some (lab, sc) =>
        match scoreArticles classify d rest with
        | .error n => .error (n + 1)
        | .ok (rest', n) =>
          .ok ({ a with sentimentLabel := some (String.toLower lab),
                        sentimentScore := some sc } :: rest', n + 1)
    else
      match scoreArticles classify d rest with
      | .error n => .error n
      | .ok (rest', n) => .ok (a :: rest', n)

/-- Direction of a mover: `"positive"` if the percent change is `> 0`,
`"negative"` if `< 0`, none if exactly 0 (skip). -/
def direction (pct : ℚ) : Option String :=
  if 0 < pct then some "positive"
  else if pct < 0 then some "negative"
  else none

/-- The articles of the date for the mover's symbol, tagged with their
position in the article list (positions stand in for Python's object
identity). -/
def moverArticlesIdx (d : Nat) (sym : String) (arts : List NewsArticle) :
    List (Nat × NewsArticle) :=
  arts.enum.filter
    (fun p => decide (p.2.date = d) && decide (p.2.symbol = sym))

/-- Sort key: the sentiment confidence score (aligned articles are always
scored in this flow, so the default never fires). -/
def scoreKey (p : Nat × NewsArticle) : ℚ :=
  (p.2.sentimentScore).getD 0

/-- Insertion step of the stable descending sort on confidence. -/
def insertByScore (p : Nat × NewsArticle) :
    List (Nat × NewsArticle) → List (Nat × NewsArticle)
  | [] => [p]
  | q :: qs =>
    if scoreKey q ≤ scoreKey p then p :: q :: qs
    else q :: insertByScore p qs

/-- Stable descending sort by confidence (Python's stable `sorted`). -/
def sortByScore (l : List (Nat × NewsArticle)) : List (Nat × NewsArticle) :=
  l.foldr insertByScore []

/-- The top-3 directionally aligned articles for a mover. -/
def topArticles (d : Nat) (sym dir : String) (arts : List NewsArticle) :
    List (Nat × NewsArticle) :=
  (sortByScore ((moverArticlesIdx d sym arts).filter
    (fun p => decide (p.2.sentimentLabel = some dir)))).take 3

/-- Copy the best aligned headline onto the mover's fields for its
direction. -/
def setMoverHeadline (m : MarketMover) (dir : String) (best : NewsArticle) :
    MarketMover :=
  if dir = "positive" then
    { m with positiveHeadline := some best.headline,
             positiveHeadlineScore := best.sentimentScore,
             positiveHeadlineUrl := some best.url }
  else
    { m with negativeHeadline := some best.headline,
             negativeHeadlineScore := best.sentimentScore,
             negativeHeadlineUrl := some best.url }

/-- Body of the per-mover loop: skip when the mover has no articles or no
direction; otherwise recompute the representative flags of the mover's
articles (clear, then mark the top 3) and, when a best aligned article
exists, copy it onto the mover's matching headline fields. -/
def processMover (d : Nat) (arts : List NewsArticle) (m : MarketMover) :
    List NewsArticle × MarketMover :=
  if (moverArticlesIdx d m.symbol arts).isEmpty then (arts, m)
  else
    match direction m.percentChange with
    | none => (arts, m)
    | some dir =>
      let top := topArticles d m.symbol dir arts
      let topIdx := top.map (·.1)
      let arts' := arts.enum.map (fun p =>
        if p.2.date = d ∧ p.2.symbol = m.symbol then
          { p.2 with isTopHeadline := decide (p.1 ∈ topIdx) }
        else p.2)
      let m' := match top.head? with
        | none => m
        | some best => setMoverHeadline m dir best.2
      (arts', m')

/-- Second loop of `analyze_sentiment_for_date`: process each mover of the
date in order against the shared (mutated in place) article list. -/
def alignMovers (d : Nat) :
    List NewsArticle → List MarketMover →
      List NewsArticle × List MarketMover
  | arts, [] => (arts, [])
  | arts, m :: ms =>
    if m.date = d then
      let pm := processMover d arts m
      let rest := alignMovers d pm.1 ms
      (rest.1, pm.2 :: rest.2)
    else
      let rest := alignMovers d arts ms
      (rest.1, m :: rest.2)

/-- `NewsService.analyze_sentiment_for_date`.  Returns the resulting state,
the number of classifier invocations, and whether the pass completed
(`false` models the `except` branch: the raise aborts the whole pass and
the rollback restores the entry state, nothing having been committed). -/
def analyze_sentiment_for_date (classify : String → Option (String × ℚ))
    (db : NewsDB) (d : Nat) : NewsDB × Nat × Bool :=
  match scoreArticles classify d db.articles with
  | .error n => (db, n, false)
  | .ok (arts1, n) =>
    let r := alignMovers d arts1 db.movers
    (⟨r.1, r.2⟩, n, true)

/-! ## Concrete news states -/

/-- Two unscored articles for AAPL on date 0. -/
def dbNews : NewsDB :=
  { articles :=
      [⟨"AAPL", 0, "bad news", "", "u1", none, none, false⟩,
       ⟨"AAPL", 0, "good news", "", "u2", none, none, false⟩],
    movers :=
      [⟨0, 1, "AAPL", "Apple", 2, 13/2, 200, 1, "gainer",
        none, none, none, none, none, none⟩] }

/-- The AAPL gainer row of `dbNews`. -/
def moverA : MarketMover :=
  ⟨0, 1, "AAPL", "Apple", 2, 13/2, 200, 1, "gainer",
   none, none, none, none, none, none⟩

/-- A classifier that fails on the first article's text and succeeds
elsewhere. -/
def classifyFailA (t : String) : Option (String × ℚ) :=
  if t = "bad news. " then none else some ("POSITIVE", 9/10)

/-- A classifier that always succeeds. -/
def classifyPos (_ : String) : Option (String × ℚ) :=
  some ("POSITIVE", 9/10)

/-! ## C8: a single classification failure aborts the whole pass -/

/-- C8 (amended): when classification of any item of the date fails, the
single `try/except` around the whole pass catches the error and rolls the
transaction back: the entire alignment pass for the date is aborted, no
other item is scored and no mover is processed — the state is returned
unchanged. -/
theorem analyze_sentiment_failure_rolls_back
    (classify : String → Option (String × ℚ)) (db : NewsDB) (d : Nat)
    (n : Nat) (h : scoreArticles classify d db.articles = .error n) :
    analyze_sentiment_for_date classify db d = (db, n, false) := by
  unfold analyze_sentiment_for_date
  rw [h]

/-- Witness for C8's amended theorem at the two-article state. -/
theorem analyze_sentiment_failure_rolls_back_witness :
    analyze_sentiment_for_date classifyFailA dbNews 0 = (dbNews, 1, false) :=
  analyze_sentiment_failure_rolls_back classifyFailA dbNews 0 1 rfl

/-- C8 counterexample: with a classifier failing on the first article, the
pass returns the entry state unchanged — the second article of the date is
left unscored and the mover of the date is not processed, contradicting
"that item is skipped while every other item is still scored and every
mover is still processed". -/
theorem analyze_sentiment_failure_aborts_batch :
    analyze_sentiment_for_date classifyFailA dbNews 0 = (dbNews, 1, false) ∧
    (dbNews.articles.get? 1).map (·.sentimentScore) = some none ∧
    (dbNews.movers.get? 0).map (·.positiveHeadline) = some none :=
  ⟨rfl, rfl, rfl⟩

/-! ## C9: only the direction's headline fields can be written -/

theorem setMoverHeadline_pos_frame (m : MarketMover) (b : NewsArticle) :
    (setMoverHeadline m "positive" b).negativeHeadline =
      m.negativeHeadline ∧
    (setMoverHeadline m "positive" b).negativeHeadlineScore =
      m.negativeHeadlineScore ∧
    (setMoverHeadline m "positive" b).negativeHeadlineUrl =
      m.negativeHeadlineUrl := by
  simp [setMoverHeadline]

theorem setMoverHeadline_neg_frame (m : MarketMover) (b : NewsArticle) :
    (setMoverHeadline m "negative" b).positiveHeadline =
      m.positiveHeadline ∧
    (setMoverHeadline m "negative" b).positiveHeadlineScore =
      m.positiveHeadlineScore ∧
    (setMoverHeadline m "negative" b).positiveHeadlineUrl =
      m.positiveHeadlineUrl := by
  simp [setMoverHeadline]

theorem processMover_of_pos (d : Nat) (arts : List NewsArticle)
    (m : MarketMover) (h : 0 < m.percentChange) :
    (processMover d arts m).2.negativeHeadline = m.negativeHeadline ∧
    (processMover d arts m).2.negativeHeadlineScore =
      m.negativeHeadlineScore ∧
    (processMover d arts m).2.negativeHeadlineUrl =
      m.negativeHeadlineUrl := by
  have hd : direction m.percentChange = some "positive" := by
    rw [direction, if_pos h]
  unfold processMover
  split
  · exact ⟨rfl, rfl, rfl⟩
  · rw [hd]
    dsimp only
    split
    · exact ⟨rfl, rfl, rfl⟩
    · exact setMoverHeadline_pos_frame m _

theorem processMover_of_neg (d : Nat) (arts : List NewsArticle)
    (m : MarketMover) (h : m.percentChange < 0) :
    (processMover d arts m).2.positiveHeadline = m.positiveHeadline ∧
    (processMover d arts m).2.positiveHeadlineScore =
      m.positiveHeadlineScore ∧
    (processMover d arts m).2.positiveHeadlineUrl =
      m.positiveHeadlineUrl := by
  have hd : direction m.percentChange = some "negative" := by
    rw [direction, if_neg (not_lt.mpr (le_of_lt h)), if_pos h]
  unfold processMover
  split
  · exact ⟨rfl, rfl, rfl⟩
  · rw [hd]
    dsimp only
    split
    · exact ⟨rfl, rfl, rfl⟩
    · exact setMoverHeadline_neg_frame m _

theorem processMover_of_zero (d : Nat) (arts : List NewsArticle)
    (m : MarketMover) (h : m.percentChange = 0) :
    processMover d arts m = (arts, m) := by
  have hd : direction m.percentChange = none := by
    simp [direction, h]
  unfold processMover
  split
  · rfl
  · rw [hd]

theorem alignMovers_movers_frame (d : Nat) :
    ∀ (ms : List MarketMover) (arts : List NewsArticle) (i : Nat)
      (m : MarketMover), ms.get? i = some m →
      ∃ m', (alignMovers d arts ms).2.get? i = some m' ∧
        (0 < m.percentChange →
          m'.negativeHeadline = m.negativeHeadline ∧
          m'.negativeHeadlineScore = m.negativeHeadlineScore ∧
          m'.negativeHeadlineUrl = m.negativeHeadlineUrl) ∧
        (m.percentChange < 0 →
          m'.positiveHeadline = m.positiveHeadline ∧
          m'.positiveHeadlineScore = m.positiveHeadlineScore ∧
          m'.positiveHeadlineUrl = m.positiveHeadlineUrl) ∧
        (m.percentChange = 0 → m' = m) := by
  intro ms
  induction ms with
  | nil => intro arts i m h; simp at h
  | cons m0 ms ih =>
    intro arts i m h
    unfold alignMovers
    split
    · dsimp only
      cases i with
      | zero =>
        rw [List.get?_cons_zero] at h
        injection h with h
        subst h
        refine ⟨(processMover d arts m0).2, rfl, ?_, ?_, ?_⟩
        · exact fun hp => processMover_of_pos d arts m0 hp
        · exact fun hn => processMover_of_neg d arts m0 hn
        · intro hz
          rw [processMover_of_zero d arts m0 hz]
      | succ i =>
        rw [List.get?_cons_succ] at h
        rw [List.get?_cons_succ]
        exact ih (processMover d arts m0).1 i m h
    · dsimp only
      cases i with
      | zero =>
        rw [List.get?_cons_zero] at h
        injection h with h
        subst h
        exact ⟨m0, rfl, fun _ => ⟨rfl, rfl, rfl⟩, fun _ => ⟨rfl, rfl, rfl⟩,
          fun _ => rfl⟩
      | succ i =>
        rw [List.get?_cons_succ] at h
        rw [List.get?_cons_succ]
        exact ih arts i m h

/-- C9: for every mover, the alignment pass can only write the headline
fields matching the sign of its percent change: a positive mover keeps its
three negative fields, a negative mover keeps its three positive fields,
and a zero mover is returned entirely unchanged (whatever the classifier
and the article set). -/
theorem analyze_sentiment_direction_frame
    (classify : String → Option (String × ℚ)) (db : NewsDB) (d : Nat)
    (i : Nat) (m : MarketMover) (h : db.movers.get? i = some m) :
    ∃ m', (analyze_sentiment_for_date classify db d).1.movers.get? i =
        some m' ∧
      (0 < m.percentChange →
        m'.negativeHeadline = m.negativeHeadline ∧
        m'.negativeHeadlineScore = m.negativeHeadlineScore ∧
        m'.negativeHeadlineUrl = m.negativeHeadlineUrl) ∧
      (m.percentChange < 0 →
        m'.positiveHeadline = m.positiveHeadline ∧
        m'.positiveHeadlineScore = m.positiveHeadlineScore ∧
        m'.positiveHeadlineUrl = m.positiveHeadlineUrl) ∧
      (m.percentChange = 0 → m' = m) := by
  unfold analyze_sentiment_for_date
  cases hs : scoreArticles classify d db.articles with
  | error n =>
    exact ⟨m, h, fun _ => ⟨rfl, rfl, rfl⟩, fun _ => ⟨rfl, rfl, rfl⟩,
      fun _ => rfl⟩
  | ok p =>
    obtain ⟨arts1, n⟩ := p
    exact alignMovers_movers_frame d db.movers arts1 i m h

/-- Witness for C9 at the concrete AAPL gainer with a succeeding
classifier. -/
theorem analyze_sentiment_direction_frame_witness :
    ∃ m', (analyze_sentiment_for_date classifyPos dbNews 0).1.movers.get? 0 =
        some m' ∧
      (0 < moverA.percentChange →
        m'.negativeHeadline = moverA.negativeHeadline ∧
        m'.negativeHeadlineScore = moverA.negativeHeadlineScore ∧
        m'.negativeHeadlineUrl = moverA.negativeHeadlineUrl) ∧
      (moverA.percentChange < 0 →
        m'.positiveHeadline = moverA.positiveHeadline ∧
        m'.positiveHeadlineScore = moverA.positiveHeadlineScore ∧
        m'.positiveHeadlineUrl = moverA.positiveHeadlineUrl) ∧
      (moverA.percentChange = 0 → m' = moverA) :=
  analyze_sentiment_direction_frame classifyPos dbNews 0 0 moverA rfl

/-! ## C7: idempotence of the alignment pass

The pass reads, of an article, everything except the representative flag
(`is_top_headline`), and of a mover only symbol, date and percent change;
it writes only article flags and mover headline fields.  `readA`/`readM`
capture the read parts; two states with equal read parts drive the pass to
identical decisions.
-/

/-- The fields of an article the alignment pass reads. -/
def readA (a : NewsArticle) :
    String × Nat × String × String × String × Option String × Option ℚ :=
  (a.symbol, a.date, a.headline, a.summary, a.url, a.sentimentLabel,
   a.sentimentScore)

/-- Position-tagged article read part (positions model object identity). -/
def pread (p : Nat × NewsArticle) :
    Nat ×
      (String × Nat × String × String × String × Option String × Option ℚ) :=
  (p.1, readA p.2)

/-- The fields of a mover the alignment pass reads. -/
def readM (m : MarketMover) : String × Nat × ℚ :=
  (m.symbol, m.date, m.percentChange)

theorem readA_eq_iff {a b : NewsArticle} : readA a = readA b ↔
    (a.symbol = b.symbol ∧ a.date = b.date ∧ a.headline = b.headline ∧
     a.summary = b.summary ∧ a.url = b.url ∧
     a.sentimentLabel = b.sentimentLabel ∧
     a.sentimentScore = b.sentimentScore) := by
  simp [readA, Prod.ext_iff]

theorem readM_eq_iff {m₁ m₂ : MarketMover} : readM m₁ = readM m₂ ↔
    (m₁.symbol = m₂.symbol ∧ m₁.date = m₂.date ∧
     m₁.percentChange = m₂.percentChange) := by
  simp [readM, Prod.ext_iff]

theorem pread_eq_iff {p q : Nat × NewsArticle} : pread p = pread q ↔
    (p.1 = q.1 ∧ readA p.2 = readA q.2) := by
  simp [pread, Prod.ext_iff]

theorem eq_of_readA_eq {a b : NewsArticle} (h : readA a = readA b)
    (hf : a.isTopHeadline = b.isTopHeadline) : a = b := by
  obtain ⟨h1, h2, h3, h4, h5, h6, h7⟩ := readA_eq_iff.mp h
  cases a
  cases b
  simp_all

/-! Generic parallel-list lemmas: operations whose decisions factor through
a projection `f` map `f`-equal lists to `f`-equal lists. -/

theorem filter_map_eq_of_map_eq {α β : Type} (f : α → β) (P : α → Bool)
    (hP : ∀ a b, f a = f b → P a = P b) :
    ∀ {l₁ l₂ : List α}, l₁.map f = l₂.map f →
      (l₁.filter P).map f = (l₂.filter P).map f := by
  intro l₁
  induction l₁ with
  | nil =>
    intro l₂ h
    cases l₂ with
    | nil => rfl
    | cons b t₂ => simp at h
  | cons a t ih =>
    intro l₂ h
    cases l₂ with
    | nil => simp at h
    | cons b t₂ =>
      simp only [List.map_cons, List.cons.injEq] at h
      obtain ⟨hab, ht⟩ := h
      rw [List.filter_cons, List.filter_cons, ← hP a b hab]
      cases hpa : P a
      · simpa using ih ht
      · simpa using ⟨hab, ih ht⟩

theorem take_map_eq_of_map_eq {α β : Type} (f : α → β) (n : Nat)
    {l₁ l₂ : List α} (h : l₁.map f = l₂.map f) :
    (l₁.take n).map f = (l₂.take n).map f := by
  rw [List.map_take, List.map_take, h]

theorem head?_map_eq_of_map_eq {α β : Type} (f : α → β)
    {l₁ l₂ : List α} (h : l₁.map f = l₂.map f) :
    l₁.head?.map f = l₂.head?.map f := by
  rw [← List.head?_map, ← List.head?_map, h]

theorem length_eq_of_map_eq {α β : Type} (f : α → β)
    {l₁ l₂ : List α} (h : l₁.map f = l₂.map f) :
    l₁.length = l₂.length := by
  rw [← List.length_map l₁ f, ← List.length_map l₂ f, h]

theorem isEmpty_eq_of_map_eq {α β : Type} (f : α → β)
    {l₁ l₂ : List α} (h : l₁.map f = l₂.map f) :
    l₁.isEmpty = l₂.isEmpty := by
  cases l₁ <;> cases l₂ <;> simp_all

theorem get?_map_eq_of_map_eq {α β : Type} (f : α → β)
    {l₁ l₂ : List α} (h : l₁.map f = l₂.map f) (i : Nat) :
    (l₁.get? i).map f = (l₂.get? i).map f := by
  rw [← List.get?_map, ← List.get?_map, h]

theorem scoreKey_eq_of_pread_eq {p q : Nat × NewsArticle}
    (h : pread p = pread q) : scoreKey p = scoreKey q := by
  obtain ⟨-, hr⟩ := pread_eq_iff.mp h
  unfold scoreKey
  rw [(readA_eq_iff.mp hr).2.2.2.2.2.2]

theorem insertByScore_map_pread {p q : Nat × NewsArticle}
    (hpq : pread p = pread q) :
    ∀ {l₁ l₂ : List (Nat × NewsArticle)}, l₁.map pread = l₂.map pread →
      (insertByScore p l₁).map pread = (insertByScore q l₂).map pread := by
  intro l₁
  induction l₁ with
  | nil =>
    intro l₂ h
    cases l₂ with
    | nil => simp [insertByScore, hpq]
    | cons b t₂ => simp at h
  | cons a t ih =>
    intro l₂ h
    cases l₂ with
    | nil => simp at h
    | cons b t₂ =>
      simp only [List.map_cons, List.cons.injEq] at h
      obtain ⟨hab, ht⟩ := h
      unfold insertByScore
      rw [← scoreKey_eq_of_pread_eq hab, ← scoreKey_eq_of_pread_eq hpq]
      split
      · simpa using ⟨hpq, hab, ht⟩
      · simpa using ⟨hab, ih ht⟩

theorem sortByScore_map_pread :
    ∀ {l₁ l₂ : List (Nat × NewsArticle)}, l₁.map pread = l₂.map pread →
      (sortByScore l₁).map pread = (sortByScore l₂).map pread := by
  intro l₁
  induction l₁ with
  | nil =>
    intro l₂ h
    cases l₂ with
    | nil => rfl
    | cons b t₂ => simp at h
  | cons a t ih =>
    intro l₂ h
    cases l₂ with
    | nil => simp at h
    | cons b t₂ =>
      simp only [List.map_cons, List.cons.injEq] at h
      obtain ⟨hab, ht⟩ := h
      exact insertByScore_map_pread hab (ih ht)

theorem enumFrom_map_pread :
    ∀ (k : Nat) {l₁ l₂ : List NewsArticle}, l₁.map readA = l₂.map readA →
      (l₁.enumFrom k).map pread = (l₂.enumFrom k).map pread := by
  intro k l₁
  induction l₁ generalizing k with
  | nil =>
    intro l₂ h
    cases l₂ with
    | nil => rfl
    | cons b t₂ => simp at h
  | cons a t ih =>
    intro l₂ h
    cases l₂ with
    | nil => simp at h
    | cons b t₂ =>
      simp only [List.map_cons, List.cons.injEq] at h
      obtain ⟨hab, ht⟩ := h
      simp only [List.enumFrom, List.map_cons]
      exact congrArg₂ List.cons (by simp [pread, hab]) (ih (k + 1) ht)

theorem enum_map_pread {l₁ l₂ : List NewsArticle}
    (h : l₁.map readA = l₂.map readA) :
    l₁.enum.map pread = l₂.enum.map pread :=
  enumFrom_map_pread 0 h

theorem moverArticlesIdx_map_pread (d : Nat) (sym : String)
    {arts₁ arts₂ : List NewsArticle}
    (h : arts₁.map readA = arts₂.map readA) :
    (moverArticlesIdx d sym arts₁).map pread =
      (moverArticlesIdx d sym arts₂).map pread := by
  unfold moverArticlesIdx
  apply filter_map_eq_of_map_eq pread _ ?_ (enum_map_pread h)
  intro p q hpq
  obtain ⟨-, hr⟩ := pread_eq_iff.mp hpq
  obtain ⟨h1, h2, -⟩ := readA_eq_iff.mp hr
  rw [h1, h2]

theorem topArticles_map_pread (d : Nat) (sym dir : String)
    {arts₁ arts₂ : List NewsArticle}
    (h : arts₁.map readA = arts₂.map readA) :
    (topArticles d sym dir arts₁).map pread =
      (topArticles d sym dir arts₂).map pread := by
  unfold topArticles
  apply take_map_eq_of_map_eq
  apply sortByScore_map_pread
  apply filter_map_eq_of_map_eq pread _ ?_ (moverArticlesIdx_map_pread d sym h)
  intro p q hpq
  obtain ⟨-, hr⟩ := pread_eq_iff.mp hpq
  rw [(readA_eq_iff.mp hr).2.2.2.2.2.1]

theorem topArticles_idx_eq (d : Nat) (sym dir : String)
    {arts₁ arts₂ : List NewsArticle}
    (h : arts₁.map readA = arts₂.map readA) :
    (topArticles d sym dir arts₁).map (·.1) =
      (topArticles d sym dir arts₂).map (·.1) := by
  have hp := congrArg (List.map (fun q :
      Nat × (String × Nat × String × String × String ×
        Option String × Option ℚ) => q.1)) (topArticles_map_pread d sym dir h)
  simpa [List.map_map, Function.comp] using hp

/-! Read-part preservation by the per-mover step. -/

theorem processMover_readA (d : Nat) (arts : List NewsArticle)
    (m : MarketMover) :
    (processMover d arts m).1.map readA = arts.map readA := by
  unfold processMover
  split
  · rfl
  · cases hdir : direction m.percentChange with
    | none => rfl
    | some dir =>
      dsimp only
      rw [List.map_map]
      have hc : (readA ∘ fun p : Nat × NewsArticle =>
          if p.2.date = d ∧ p.2.symbol = m.symbol then
            { p.2 with
                isTopHeadline := decide (p.1 ∈ (topArticles d m.symbol dir arts).map (·.1)) }
          else p.2) = (fun p : Nat × NewsArticle => readA p.2) := by
        funext p
        simp only [Function.comp]
        split <;> rfl
      rw [hc]
      have hsnd : (fun p : Nat × NewsArticle => readA p.2) =
          readA ∘ Prod.snd := rfl
      rw [hsnd, ← List.map_map, List.enum_map_snd]

theorem setMoverHeadline_readM (m : MarketMover) (dir : String)
    (b : NewsArticle) : readM (setMoverHeadline m dir b) = readM m := by
  unfold setMoverHeadline
  split <;> rfl

theorem processMover_readM (d : Nat) (arts : List NewsArticle)
    (m : MarketMover) :
    readM (processMover d arts m).2 = readM m := by
  unfold processMover
  split
  · rfl
  · cases hdir : direction m.percentChange with
    | none => rfl
    | some dir =>
      dsimp only
      split
      · rfl
      · exact setMoverHeadline_readM m dir _

/-! Determinism and absorption of the mover update. -/

theorem setMoverHeadline_congr (m : MarketMover) (dir : String)
    {b₁ b₂ : NewsArticle} (h : readA b₁ = readA b₂) :
    setMoverHeadline m dir b₁ = setMoverHeadline m dir b₂ := by
  obtain ⟨-, -, h3, -, h5, -, h7⟩ := readA_eq_iff.mp h
  unfold setMoverHeadline
  split <;> simp [h3, h5, h7]

theorem setMoverHeadline_absorb (m : MarketMover) (dir : String)
    {b b' : NewsArticle} (h : readA b' = readA b) :
    setMoverHeadline (setMoverHeadline m dir b) dir b' =
      setMoverHeadline m dir b := by
  obtain ⟨-, -, h3, -, h5, -, h7⟩ := readA_eq_iff.mp h
  unfold setMoverHeadline
  split <;> simp [h3, h5, h7]

/-- A second application of the per-mover step, against any read-equal
article list, returns the already-updated mover unchanged. -/
theorem processMover_absorb (d : Nat) {arts arts' : List NewsArticle}
    (hA : arts'.map readA = arts.map readA) (m : MarketMover) :
    (processMover d arts' ((processMover d arts m).2)).2 =
      (processMover d arts m).2 := by
  obtain ⟨hsym, -, hpct⟩ := readM_eq_iff.mp (processMover_readM d arts m)
  set m₁ := (processMover d arts m).2 with hm₁
  have hguard : (moverArticlesIdx d m₁.symbol arts').isEmpty =
      (moverArticlesIdx d m.symbol arts).isEmpty := by
    rw [hsym]
    exact isEmpty_eq_of_map_eq pread (moverArticlesIdx_map_pread d _ hA)
  by_cases hempty : (moverArticlesIdx d m.symbol arts).isEmpty = true
  · conv_lhs => rw [processMover]
    rw [if_pos (hguard.trans hempty)]
  · conv_lhs => rw [processMover]
    rw [if_neg (by rw [hguard]; exact hempty)]
    cases hdir : direction m.percentChange with
    | none =>
      rw [hpct, hdir]
    | some dir =>
      rw [hpct, hdir]
      dsimp only
      have htop : (topArticles d m₁.symbol dir arts').map pread =
          (topArticles d m.symbol dir arts).map pread := by
        rw [hsym]
        exact topArticles_map_pread d _ _ hA
      have hhead := head?_map_eq_of_map_eq pread htop
      -- the inner step, under the same guards:
      have hm₁' : m₁ = match (topArticles d m.symbol dir arts).head? with
          | none => m
          | some best => setMoverHeadline m dir best.2 := by
        rw [hm₁]
        conv_lhs => rw [processMover]
        rw [if_neg hempty, hdir]
      rw [hsym] at hhead ⊢
      generalize (topArticles d m.symbol dir arts).head? = o₂ at hhead hm₁'
      generalize (topArticles d m.symbol dir arts').head? = o₁ at hhead ⊢
      cases o₂ with
      | none =>
        cases o₁ with
        | none => rfl
        | some b' => simp at hhead
      | some best =>
        cases o₁ with
        | none => simp at hhead
        | some b' =>
          simp only [Option.map_some', Option.some.injEq] at hhead
          dsimp only at hm₁' ⊢
          rw [hm₁']
          exact setMoverHeadline_absorb m dir (pread_eq_iff.mp hhead).2

/-! Read-part preservation by the whole per-date loop. -/

theorem alignMovers_readA (d : Nat) :
    ∀ (ms : List MarketMover) (arts : List NewsArticle),
      (alignMovers d arts ms).1.map readA = arts.map readA := by
  intro ms
  induction ms with
  | nil => intro arts; rfl
  | cons m0 ms ih =>
    intro arts
    unfold alignMovers
    split
    · dsimp only
      rw [ih (processMover d arts m0).1, processMover_readA]
    · dsimp only
      exact ih arts

theorem alignMovers_readM (d : Nat) :
    ∀ (ms : List MarketMover) (arts : List NewsArticle),
      (alignMovers d arts ms).2.map readM = ms.map readM := by
  intro ms
  induction ms with
  | nil => intro arts; rfl
  | cons m0 ms ih =>
    intro arts
    unfold alignMovers
    split
    · dsimp only
      rw [List.map_cons, List.map_cons, processMover_readM, ih]
    · dsimp only
      rw [List.map_cons, List.map_cons, ih]

/-- Second pass over the movers returns them unchanged: each step recomputes
the same update values from the (invariant) read parts, and overwriting a
field with the value it already holds is the identity. -/
theorem alignMovers_movers_idem (d : Nat) :
    ∀ (ms : List MarketMover) (arts arts' : List NewsArticle),
      arts'.map readA = arts.map readA →
      (alignMovers d arts' (alignMovers d arts ms).2).2 =
        (alignMovers d arts ms).2 := by
  intro ms
  induction ms with
  | nil => intro arts arts' _; rfl
  | cons m0 ms ih =>
    intro arts arts' hA
    conv_lhs => rw [alignMovers]
    conv_rhs => rw [alignMovers]
    by_cases hd0 : m0.date = d
    · rw [if_pos hd0]
      dsimp only
      have hdate : ((processMover d arts m0).2).date = m0.date :=
        (readM_eq_iff.mp (processMover_readM d arts m0)).2.1
      conv_lhs => rw [alignMovers]
      rw [if_pos (hdate.trans hd0)]
      dsimp only
      rw [processMover_absorb d hA m0]
      congr 1
      have hA' : ((processMover d arts' ((processMover d arts m0).2)).1).map
          readA = ((processMover d arts m0).1).map readA := by
        rw [processMover_readA, processMover_readA, hA]
      exact ih (processMover d arts m0).1 _ hA'
    · rw [if_neg hd0]
      dsimp only
      conv_lhs => rw [alignMovers]
      rw [if_neg hd0]
      dsimp only
      rw [ih arts arts' hA]

/-! Positional characterization of the article writes of one step. -/

theorem processMover_arts_get?_none (d : Nat) (arts : List NewsArticle)
    (m : MarketMover) (i : Nat) (ha : arts.get? i = none) :
    (processMover d arts m).1.get? i = none := by
  unfold processMover
  split
  · exact ha
  · cases hdir : direction m.percentChange with
    | none => exact ha
    | some dir =>
      dsimp only
      rw [List.get?_map, List.get?_enum, ha]
      rfl

theorem processMover_arts_get?_untouched (d : Nat) (arts : List NewsArticle)
    (m : MarketMover) (i : Nat) (a : NewsArticle) (ha : arts.get? i = some a)
    (h : ¬(a.date = d ∧ a.symbol = m.symbol)) :
    (processMover d arts m).1.get? i = some a := by
  unfold processMover
  split
  · exact ha
  · cases hdir : direction m.percentChange with
    | none => exact ha
    | some dir =>
      dsimp only
      rw [List.get?_map, List.get?_enum, ha]
      dsimp only [Option.map_some']
      rw [if_neg h]

theorem processMover_arts_dirnone (d : Nat) (arts : List NewsArticle)
    (m : MarketMover) (hdir : direction m.percentChange = none) :
    (processMover d arts m).1 = arts := by
  unfold processMover
  split
  · rfl
  · rw [hdir]

theorem processMover_arts_get?_touched (d : Nat) (arts : List NewsArticle)
    (m : MarketMover) (i : Nat) (a : NewsArticle) (dir : String)
    (ha : arts.get? i = some a) (ht : a.date = d ∧ a.symbol = m.symbol)
    (hdir : direction m.percentChange = some dir) :
    (processMover d arts m).1.get? i =
      some { a with
              isTopHeadline := decide (i ∈ (topArticles d m.symbol dir arts).map (·.1)) } := by
  have hmem : (i, a) ∈ moverArticlesIdx d m.symbol arts := by
    unfold moverArticlesIdx
    refine List.mem_filter.mpr ⟨?_, by simp [ht.1, ht.2]⟩
    exact List.mem_enum_iff_get?.mpr ha
  unfold processMover
  rw [if_neg (by
    intro hct
    rw [List.isEmpty_iff] at hct
    rw [hct] at hmem
    exact (List.not_mem_nil _) hmem)]
  rw [hdir]
  dsimp only
  rw [List.get?_map, List.get?_enum, ha]
  dsimp only [Option.map_some']
  rw [if_pos ht]

/-- Two runs of the per-date loop over read-equal states write the same
flag values: at every position, either the two output article lists agree,
or neither run touched the position and each output keeps its own input. -/
theorem alignMovers_arts_par (d : Nat) :
    ∀ (ms₁ ms₂ : List MarketMover) (arts₁ arts₂ : List NewsArticle),
      ms₁.map readM = ms₂.map readM →
      arts₁.map readA = arts₂.map readA →
      ∀ i, (alignMovers d arts₁ ms₁).1.get? i =
             (alignMovers d arts₂ ms₂).1.get? i
        ∨ ((alignMovers d arts₁ ms₁).1.get? i = arts₁.get? i ∧
           (alignMovers d arts₂ ms₂).1.get? i = arts₂.get? i) := by
  intro ms₁
  induction ms₁ with
  | nil =>
    intro ms₂ arts₁ arts₂ hM hA i
    cases ms₂ with
    | nil => exact Or.inr ⟨rfl, rfl⟩
    | cons _ _ => simp at hM
  | cons m₁ t₁ ih =>
    intro ms₂ arts₁ arts₂ hM hA i
    cases ms₂ with
    | nil => simp at hM
    | cons m₂ t₂ =>
      simp only [List.map_cons, List.cons.injEq] at hM
      obtain ⟨hm, ht⟩ := hM
      obtain ⟨hsym, hdate, hpct⟩ := readM_eq_iff.mp hm
      unfold alignMovers
      by_cases hd : m₁.date = d
      · rw [if_pos hd, if_pos (hdate.symm.trans hd)]
        dsimp only
        have hA' : ((processMover d arts₁ m₁).1).map readA =
            ((processMover d arts₂ m₂).1).map readA := by
          rw [processMover_readA, processMover_readA, hA]
        rcases ih t₂ (processMover d arts₁ m₁).1 (processMover d arts₂ m₂).1
            ht hA' i with heq | ⟨e₁, e₂⟩
        · exact Or.inl heq
        · cases ha₁ : arts₁.get? i with
          | none =>
            have ha₂ : arts₂.get? i = none := by
              have hg := get?_map_eq_of_map_eq readA hA i
              rw [ha₁] at hg
              cases hx : arts₂.get? i with
              | none => rfl
              | some b => rw [hx] at hg; simp at hg
            left
            rw [e₁, e₂, processMover_arts_get?_none d arts₁ m₁ i ha₁,
              processMover_arts_get?_none d arts₂ m₂ i ha₂]
          | some a₁ =>
            obtain ⟨a₂, ha₂, hra⟩ : ∃ a₂, arts₂.get? i = some a₂ ∧
                readA a₁ = readA a₂ := by
              have hg := get?_map_eq_of_map_eq readA hA i
              rw [ha₁] at hg
              cases hx : arts₂.get? i with
              | none => rw [hx] at hg; simp at hg
              | some b =>
                rw [hx] at hg
                simp only [Option.map_some', Option.some.injEq] at hg
                exact ⟨b, rfl, hg⟩
            obtain ⟨hrs, hrd, -⟩ := readA_eq_iff.mp hra
            by_cases htc : a₁.date = d ∧ a₁.symbol = m₁.symbol
            · cases hdir : direction m₁.percentChange with
              | none =>
                right
                constructor
                · rw [e₁, processMover_arts_dirnone d arts₁ m₁ hdir]
                  exact ha₁
                · rw [e₂, processMover_arts_dirnone d arts₂ m₂
                    (by rw [← hpct]; exact hdir)]
              | some dir =>
                left
                have htc₂ : a₂.date = d ∧ a₂.symbol = m₂.symbol :=
                  ⟨hrd ▸ htc.1, hsym ▸ hrs ▸ htc.2⟩
                rw [e₁, e₂,
                  processMover_arts_get?_touched d arts₁ m₁ i a₁ dir ha₁
                    htc hdir,
                  processMover_arts_get?_touched d arts₂ m₂ i a₂ dir ha₂
                    htc₂ (by rw [← hpct]; exact hdir)]
                have hidx : (topArticles d m₁.symbol dir arts₁).map (·.1) =
                    (topArticles d m₂.symbol dir arts₂).map (·.1) := by
                  rw [← hsym]
                  exact topArticles_idx_eq d m₁.symbol dir hA
                congr 1
                apply eq_of_readA_eq
                · show readA a₁ = readA a₂
                  exact hra
                · show decide _ = decide _
                  rw [hidx]
            · right
              have htc₂' : ¬(a₂.date = d ∧ a₂.symbol = m₂.symbol) := by
                intro hc
                exact htc ⟨hrd.symm ▸ hc.1, by rw [hrs, hc.2, hsym]⟩
              constructor
              · rw [e₁, processMover_arts_get?_untouched d arts₁ m₁ i a₁
                  ha₁ htc]
              · rw [e₂, processMover_arts_get?_untouched d arts₂ m₂ i a₂
                  ha₂ htc₂']
                exact ha₂.symm
      · rw [if_neg hd, if_neg (by rw [← hdate]; exact hd)]
        dsimp only
        exact ih t₂ arts₁ arts₂ ht hA i

/-! Scoring-phase lemmas. -/

/-- After a successful scoring phase every article of the date carries a
score. -/
theorem scoreArticles_ok_scored (classify : String → Option (String × ℚ))
    (d : Nat) :
    ∀ {arts arts' : List NewsArticle} {n : Nat},
      scoreArticles classify d arts = .ok (arts', n) →
      ∀ a ∈ arts', a.date = d → a.sentimentScore ≠ none := by
  intro arts
  induction arts with
  | nil =>
    intro arts' n h b hb _
    unfold scoreArticles at h
    simp only [Except.ok.injEq, Prod.mk.injEq] at h
    rw [← h.1] at hb
    cases hb
  | cons a0 rest ih =>
    intro arts' n h b hb hbd
    unfold scoreArticles at h
    split at h
    · cases hcl : classify (classifyText a0) with
      | none => rw [hcl] at h; simp at h
      | some p =>
        obtain ⟨lab, sc⟩ := p
        rw [hcl] at h
        cases hrec : scoreArticles classify d rest with
        | error k => rw [hrec] at h; simp at h
        | ok q =>
          obtain ⟨rest', k⟩ := q
          rw [hrec] at h
          simp only [Except.ok.injEq, Prod.mk.injEq] at h
          rw [← h.1] at hb
          rcases List.mem_cons.mp hb with rfl | hb'
          · simp
          · exact ih hrec b hb' hbd
    · rename_i hcond
      cases hrec : scoreArticles classify d rest with
      | error k => rw [hrec] at h; simp at h
      | ok q =>
        obtain ⟨rest', k⟩ := q
        rw [hrec] at h
        simp only [Except.ok.injEq, Prod.mk.injEq] at h
        rw [← h.1] at hb
        rcases List.mem_cons.mp hb with rfl | hb'
        · intro hns
          exact hcond ⟨hbd, hns⟩
        · exact ih hrec b hb' hbd

/-- Scoring a list whose date-`d` articles all carry scores is the identity
and does not invoke the classifier at all — the scoring step is idempotent
and skips already-labeled items. -/
theorem scoreArticles_of_scored (classify : String → Option (String × ℚ))
    (d : Nat) :
    ∀ {arts : List NewsArticle},
      (∀ a ∈ arts, a.date = d → a.sentimentScore ≠ none) →
      scoreArticles classify d arts = .ok (arts, 0) := by
  intro arts
  induction arts with
  | nil => intro _; rfl
  | cons a0 rest ih =>
    intro h
    have hcond : ¬(a0.date = d ∧ a0.sentimentScore = none) := by
      rintro ⟨h1, h2⟩
      exact h a0 (List.mem_cons_self a0 rest) h1 h2
    unfold scoreArticles
    rw [if_neg hcond, ih (fun a ha => h a (List.mem_cons_of_mem _ ha))]

/-- C7: the sentiment alignment pass is idempotent.  Running it a second
time on the resulting state (same date, unchanged article set) returns the
state unchanged — identical representative-flag selection and identical
mover headline fields; when the first run completed, the second run makes
zero classifier invocations; and on any state whose date articles already
carry scores, the pass does not invoke the classifier at all. -/
theorem analyze_sentiment_idempotent
    (classify : String → Option (String × ℚ)) (db : NewsDB) (d : Nat) :
    (analyze_sentiment_for_date classify
        (analyze_sentiment_for_date classify db d).1 d).1 =
      (analyze_sentiment_for_date classify db d).1 ∧
    ((analyze_sentiment_for_date classify db d).2.2 = true →
      (analyze_sentiment_for_date classify
        (analyze_sentiment_for_date classify db d).1 d).2.1 = 0) ∧
    ((∀ a ∈ db.articles, a.date = d → a.sentimentScore ≠ none) →
      (analyze_sentiment_for_date classify db d).2.1 = 0) := by
  cases hs : scoreArticles classify d db.articles with
  | error n =>
    have h1 : analyze_sentiment_for_date classify db d = (db, n, false) := by
      unfold analyze_sentiment_for_date
      rw [hs]
    refine ⟨?_, ?_, ?_⟩
    · rw [h1]
      dsimp only
      rw [h1]
    · rw [h1]
      intro hff
      simp at hff
    · intro hsc
      rw [scoreArticles_of_scored classify d hsc] at hs
      simp at hs
  | ok p =>
    obtain ⟨arts1, n⟩ := p
    have h1 : analyze_sentiment_for_date classify db d =
        (⟨(alignMovers d arts1 db.movers).1,
          (alignMovers d arts1 db.movers).2⟩, n, true) := by
      unfold analyze_sentiment_for_date
      rw [hs]
    have hA : arts1.map readA = (alignMovers d arts1 db.movers).1.map readA :=
      (alignMovers_readA d db.movers arts1).symm
    have hscored : ∀ a ∈ (alignMovers d arts1 db.movers).1, a.date = d →
        a.sentimentScore ≠ none := by
      intro a ha had
      obtain ⟨i, hi⟩ := List.mem_iff_get?.mp ha
      have hg := get?_map_eq_of_map_eq readA hA.symm i
      rw [hi] at hg
      cases hx : arts1.get? i with
      | none => rw [hx] at hg; simp at hg
      | some b =>
        rw [hx] at hg
        simp only [Option.map_some', Option.some.injEq] at hg
        obtain ⟨-, hbd, -, -, -, -, hbs⟩ := readA_eq_iff.mp hg
        rw [hbs]
        exact scoreArticles_ok_scored classify d hs b
          (List.mem_iff_get?.mpr ⟨i, hx⟩) (hbd ▸ had)
    have hs2 : scoreArticles classify d (alignMovers d arts1 db.movers).1 =
        .ok ((alignMovers d arts1 db.movers).1, 0) :=
      scoreArticles_of_scored classify d hscored
    have h2 : analyze_sentiment_for_date classify
        (⟨(alignMovers d arts1 db.movers).1,
          (alignMovers d arts1 db.movers).2⟩ : NewsDB) d =
        (⟨(alignMovers d (alignMovers d arts1 db.movers).1
             (alignMovers d arts1 db.movers).2).1,
          (alignMovers d (alignMovers d arts1 db.movers).1
             (alignMovers d arts1 db.movers).2).2⟩, 0, true) := by
      unfold analyze_sentiment_for_date
      rw [hs2]
    have hAidem : (alignMovers d (alignMovers d arts1 db.movers).1
        (alignMovers d arts1 db.movers).2).1 =
        (alignMovers d arts1 db.movers).1 := by
      rw [List.ext_get?_iff]
      intro i
      have hM : db.movers.map readM =
          (alignMovers d arts1 db.movers).2.map readM :=
        (alignMovers_readM d db.movers arts1).symm
      rcases alignMovers_arts_par d db.movers
          (alignMovers d arts1 db.movers).2 arts1
          (alignMovers d arts1 db.movers).1 hM hA i with heq | ⟨-, e₂⟩
      · exact heq.symm
      · exact e₂
    have hMidem := alignMovers_movers_idem d db.movers arts1
      (alignMovers d arts1 db.movers).1 (alignMovers_readA d db.movers arts1)
    refine ⟨?_, ?_, ?_⟩
    · rw [h1]
      dsimp only
      rw [h2]
      dsimp only
      rw [hAidem, hMidem]
    · intro _
      rw [h1]
      dsimp only
      rw [h2]
    · intro hsc
      rw [scoreArticles_of_scored classify d hsc] at hs
      simp only [Except.ok.injEq, Prod.mk.injEq] at hs
      rw [h1]
      dsimp only
      exact hs.2.symm

/-- Witness for C7: on the concrete two-article state with a succeeding
classifier the first run completes, and the second run makes zero
classifier invocations. -/
theorem analyze_sentiment_idempotent_witness :
    (analyze_sentiment_for_date classifyPos
        (analyze_sentiment_for_date classifyPos dbNews 0).1 0).2.1 = 0 ∧
    (analyze_sentiment_for_date classifyPos
        (analyze_sentiment_for_date classifyPos dbNews 0).1 0).1 =
      (analyze_sentiment_for_date classifyPos dbNews 0).1 :=
  ⟨(analyze_sentiment_idempotent classifyPos dbNews 0).2.1 rfl,
   (analyze_sentiment_idempotent classifyPos dbNews 0).1⟩

end MarketMovers
